import Mathlib

/-!
Verification of the transform pipeline engine of the DGP repository
(`src/dgp/lib/transform.py`): transform registration, parameterized transform
instances, ordered transform chains, and the caching data wrapper.

The embedding is shallow: Python dicts become insertion-ordered association
lists, Python exceptions become an explicit error type threaded through
`Except`, and the random `gen_uuid` identifiers (file `src/dgp/lib/etc.py`)
become a deterministic fresh-counter supply of natural numbers. Operations
that in Python may raise after having already mutated part of the object
return the partially mutated state next to the error, so partial-mutation
behaviour stays visible.
-/

/-- Exception kinds raised by the embedded code paths. -/
inductive PyErr
  | typeError
  | keyError
  | valueError
  | nameError
  deriving DecidableEq, Repr

/-- Association-list lookup, modelling Python dict subscript access on an
insertion-ordered list of key-value pairs (`none` models a `KeyError`). -/
def alookup {κ : Type} {α : Type} [DecidableEq κ] : List (κ × α) → κ → Option α
  | [], _ => none
  | p :: rest, k => if p.1 = k then some p.2 else alookup rest k

/-- Python dict assignment `d[k] = v`: an existing key keeps its insertion
position and gets the new value; a new key is appended at the end. -/
def pyDictSet {κ : Type} {α : Type} [DecidableEq κ] : List (κ × α) → κ → α → List (κ × α)
  | [], k, v => [(k, v)]
  | p :: rest, k, v => if p.1 = k then (k, v) :: rest else p :: pyDictSet rest k v

/-- Python dict deletion `del d[k]` once the key is known to be present:
removes the first (for a dict, the only) entry with key `k`. -/
def eraseKeyA {κ : Type} {α : Type} [DecidableEq κ] : List (κ × α) → κ → List (κ × α)
  | [], _ => []
  | p :: rest, k => if p.1 = k then rest else p :: eraseKeyA rest k

/-- Python `list.insert(i, x)`: inserts before index `i`, appending when `i`
is at or beyond the end of the list. -/
def pyInsert {α : Type} (i : Nat) (x : α) : List α → List α
  | [] => [x]
  | y :: ys =>
    match i with
    | 0 => x :: y :: ys
    | j + 1 => y :: pyInsert j x ys

/-- Whether an `Except` value is a success, for no-crash statements. -/
def exceptOk {ε : Type} {α : Type} : Except ε α → Bool
  | .ok _ => true
  | .error _ => false

/-- A table of data: insertion-ordered named columns of integer samples.
This models the pandas DataFrame values the engine is applied to, at the
level of detail the claims need (column names and cell contents). -/
def Table : Type := List (String × List Int)

instance : DecidableEq Table := by
  unfold Table
  infer_instance

/-- Keyword arguments forwarded by `TransformChain.apply` to each transform. -/
def Kwargs : Type := List (String × Int)

/-- A transform as held inside a chain: a Python callable taking the table
and the forwarded keyword arguments. -/
def Tf : Type := Table → Kwargs → Table

/-- The identity transform, used as a concrete callable in witnesses. -/
def idTf : Tf := fun t _ => t

/-- The embedding of class `TransformChain` (transform.py lines 132-136):
`_uid` from `gen_uuid`, the `_transforms` dict from id to callable, and the
separate `_ordering` list of ids. -/
structure TransformChain where
  uid : Nat
  transforms : List (Nat × Tf)
  ordering : List Nat

/-- The argument passed to `TransformChain.addtransform`: an arbitrary Python
object that either is callable or is not. -/
inductive AddArg
  | callable (f : Tf)
  | notCallable

/-- The embedding of `TransformChain.__init__`: a fresh uid is drawn from the
generator state `g`, both containers start empty. -/
def mkChain (g : Nat) : TransformChain × Nat :=
  (⟨g, [], []⟩, g + 1)

/-- The embedding of `TransformChain.addtransform` (lines 146-153): a callable
argument gets a fresh uid, is stored in the `_transforms` dict and appended to
`_ordering`, and the pair of the uid and the stored entry is returned; any
other argument returns `None` and leaves the chain untouched. -/
def TransformChain.addtransform (c : TransformChain) (t : AddArg) (g : Nat) :
    Option (Nat × Tf) × TransformChain × Nat :=
  match t with
  | .callable f =>
    let uid := g
    let tfs := pyDictSet c.transforms uid f
    let c1 : TransformChain := { c with transforms := tfs, ordering := c.ordering ++ [uid] }
    ((alookup tfs uid).map (fun tf => (uid, tf)), c1, g + 1)
  | .notCallable => (none, c, g)

/-- The embedding of `TransformChain.removetransform` (lines 155-157):
`del self._transforms[uid]` raises `KeyError` on an absent id, then
`self._ordering.remove(uid)` raises `ValueError` when the id is not in the
ordering, leaving the dict already mutated in that case. -/
def TransformChain.removetransform (c : TransformChain) (uid : Nat) :
    Except PyErr Unit × TransformChain :=
  if (alookup c.transforms uid).isSome then
    let c1 : TransformChain := { c with transforms := eraseKeyA c.transforms uid }
    if uid ∈ c1.ordering then
      (.ok (), { c1 with ordering := c1.ordering.erase uid })
    else
      (.error .valueError, c1)
  else
    (.error .keyError, c)

/-- Modelled from the spec: `dedup_dict` is imported in `transform.py` from
`dgp.lib.etc`, but no definition of it appears anywhere in the repository
source (`src/dgp/lib/etc.py` defines only `interp_nans` and `gen_uuid`). Per
the spec it is the external dedup-map pre-step of `reorder` that removes
duplicate target positions, one surviving entry per position, chosen
deterministically; the spec leaves the tie-break open, and this model keeps
the earliest entry in insertion order for each position. -/
def dedup_dict (m : List (Nat × Nat)) : List (Nat × Nat) :=
  m.foldl (fun acc p => if acc.any (fun q => q.2 = p.2) then acc else acc ++ [p]) []

/-- Stable insertion of a key into a key-list sorted ascending by its position
in the map `d`: the new key goes before the first key of strictly greater or
equal position already placed later in the original enumeration. -/
def insertByPos (d : List (Nat × Nat)) (k : Nat) : List Nat → List Nat
  | [] => [k]
  | y :: ys =>
    if (alookup d k).getD 0 ≤ (alookup d y).getD 0 then k :: y :: ys
    else y :: insertByPos d k ys

/-- The embedding of `sorted(d.keys(), key=d.__getitem__)`: a stable sort of
the keys of `d` ascending by their mapped position. -/
def sortedByPos (d : List (Nat × Nat)) : List Nat → List Nat
  | [] => []
  | k :: ks => insertByPos d k (sortedByPos d ks)

/-- The loop body of `TransformChain.reorder` (lines 166-168): for each uid in
the sorted key list, `self._ordering.remove(uid)` (a `ValueError` when the uid
is absent, with the list unchanged), then `self._ordering.insert(d[uid], uid)`
(the dict access raising `KeyError` after the removal already happened). -/
def reorderLoop (d : List (Nat × Nat)) : List Nat → List Nat → Except PyErr Unit × List Nat
  | [], lst => (.ok (), lst)
  | uid :: rest, lst =>
    if uid ∈ lst then
      match alookup d uid with
      | none => (.error .keyError, lst.erase uid)
      | some pos => reorderLoop d rest (pyInsert pos uid (lst.erase uid))
    else
      (.error .valueError, lst)

/-- The embedding of `TransformChain.reorder` (lines 159-169): dedup the
position map, sort the surviving uids ascending by target position, then
remove and reinsert each uid at its target index, returning the resulting
ordering. -/
def TransformChain.reorder (c : TransformChain) (reordering : List (Nat × Nat)) :
    Except PyErr (List Nat) × TransformChain :=
  let d := dedup_dict reordering
  let order := sortedByPos d (d.map Prod.fst)
  match reorderLoop d order c.ordering with
  | (.ok _, lst) => (.ok lst, { c with ordering := lst })
  | (.error e, lst) => (.error e, { c with ordering := lst })

/-- The fold inside `TransformChain.apply` (lines 177-178): look each uid up
in the `_transforms` dict (a `KeyError` when absent) and thread the table
through the callables in order. -/
def applyList (tfs : List (Nat × Tf)) (kwargs : Kwargs) : List Nat → Table → Except PyErr Table
  | [], acc => .ok acc
  | uid :: rest, acc =>
    match alookup tfs uid with
    | none => .error .keyError
    | some f => applyList tfs kwargs rest (f acc kwargs)

/-- The embedding of `TransformChain.apply` (lines 171-179) at the level of
table values: the deep copy of the argument is the value threaded through the
transforms, so the function is pure in the input value. The heap-level
embedding `TransformChain.applyRef` below accounts for object identity. -/
def TransformChain.apply (c : TransformChain) (df : Table) (kwargs : Kwargs) :
    Except PyErr Table :=
  applyList c.transforms kwargs c.ordering df

/-- The length of a chain per `TransformChain.__len__` (lines 181-182): the
number of entries of the `_transforms` dict. -/
def chainLen (c : TransformChain) : Nat :=
  c.transforms.length

/-- A declared transform variable, per the two shapes stored in `var_list`
(transform.py lines 25-28 and 90-95): either a bare name, or a tuple of a
name and a default value (which Python allows to be `None`). -/
inductive PyVar
  | plain (name : String)
  | withDefault (name : String) (val : Option Int)
  deriving DecidableEq

/-- The name of a declared variable (lines 91-95 unpack the two shapes). -/
def PyVar.name : PyVar → String
  | .plain n => n
  | .withDefault n _ => n

/-- The default bound to a declared variable: the tuple value, or `None` for
a bare name (lines 91-95). -/
def PyVar.initVal : PyVar → Option Int
  | .plain _ => none
  | .withDefault _ v => v

/-- Instance attributes of a transform object: the insertion-ordered
`__dict__`, with each stored value either an integer or Python `None`.
Presence in the list models presence in `__dict__`, so a stored `none` (an
attribute set to `None`) stays distinct from an absent attribute. The `_uid`
string attribute and the class attributes `var_list` and `func` never collide
with declared variable names in the engine and are modelled separately. -/
def PyAttrs : Type := List (String × Option Int)

/-- The expression `getattr(self, name, None)`: `None` both for an absent
attribute and for an attribute stored as `None`. -/
def pyGetAttrD (attrs : PyAttrs) (name : String) : Option Int :=
  (alookup attrs name).join

/-- The last `name` bound by the defaults loop of `Transform.__init__`
(lines 90-98): after that loop the variable `name` still holds the name of
the last declared variable, and the kwargs loop (lines 101-103) reads this
stale variable; with an empty `var_list` the variable was never bound and
reading it raises `NameError`. -/
def lastVarName (vars : List PyVar) : Option String :=
  vars.getLast?.map PyVar.name

/-- The defaults loop of `Transform.__init__` (lines 90-98): each declared
variable whose `getattr(self, name, None)` is `None` is set to its declared
default (or `None` for a bare name). -/
def initVarsLoop (vars : List PyVar) (attrs : PyAttrs) : PyAttrs :=
  vars.foldl
    (fun a v => if pyGetAttrD a v.name = none then pyDictSet a v.name v.initVal else a)
    attrs

/-- The embedding of `Transform.__init__` (lines 85-103): a `None` value of
`var_list` raises `ValueError`; the defaults loop fills each declared
variable; then the kwargs loop sets attribute `k` to `v` for each keyword
pair, but only when `getattr(self, name, None) is not None` holds for the
stale `name` left over from the defaults loop. -/
def transformInit (varList : Option (List PyVar)) (kwargs : List (String × Option Int)) :
    Except PyErr PyAttrs :=
  match varList with
  | none => .error .valueError
  | some vars =>
    kwargs.foldl
      (fun acc kv =>
        match acc with
        | .error e => .error e
        | .ok a =>
          match lastVarName vars with
          | none => .error .nameError
          | some nm =>
            if pyGetAttrD a nm ≠ none then .ok (pyDictSet a kv.1 kv.2) else .ok a)
      (.ok (initVarsLoop vars []))

/-- The `args` component of `inspect.getfullargspec(self.func)` in
`Transform.__call__` (line 111) on the function-decorator path: `self.func`
is the bound method of `class_func(self, *args, **kwargs)` (lines 29-30), and
`getfullargspec` lists only the named positional parameters of that function,
namely `self`; the starred parameters and the keyword-only parameters of the
decorated function are not among them. -/
def classFuncArgspecArgs : List String := ["self"]

/-- The keyword-building part of `Transform.__call__` (lines 109-124): for
each declared variable whose name is among the argspec `args`, read
`self.__dict__[name]` (a `KeyError` when the attribute is absent from the
instance dict) into the keyword dict, then lay the call-time keyword
arguments on top, the call-time value winning on conflict. -/
def buildCallKeywords (varList : List PyVar) (attrs : PyAttrs)
    (argspecArgs : List String) (callKwargs : List (String × Option Int)) :
    Except PyErr (List (String × Option Int)) :=
  match varList.foldl
      (fun (acc : Except PyErr (List (String × Option Int))) v =>
        match acc with
        | .error e => .error e
        | .ok kw =>
          if v.name ∈ argspecArgs then
            match alookup attrs v.name with
            | none => .error .keyError
            | some val => .ok (pyDictSet kw v.name val)
          else .ok kw)
      (.ok []) with
  | .error e => .error e
  | .ok kw => .ok (callKwargs.foldl (fun k p => pyDictSet k p.1 p.2) kw)

/-- The decorated example function `scale(data, *, factor=2)` returning the
data multiplied by the factor, the shape the spec scenario names; its one
keyword-only parameter with default `2` gives `var_list = [(factor, 2)]`
under `createtransformclass` (lines 20-28). -/
def scaleFunc (data : List Int) (factor : Int) : List Int :=
  data.map (fun n => n * factor)

/-- The `var_list` that `createtransformclass` derives for `scaleFunc`. -/
def scaleVarList : List PyVar := [.withDefault "factor" (some 2)]

/-- The invocation `func(*args, **keywords)` (line 125) for `scaleFunc`: a
keyword other than `factor` raises `TypeError`; a `factor` bound to `None`
makes the multiplication raise `TypeError`; an absent `factor` falls back to
the declared default `2`. -/
def callScaleFunc (data : List Int) (keywords : List (String × Option Int)) :
    Except PyErr (List Int) :=
  if keywords.all (fun p => p.1 = "factor") then
    match alookup keywords "factor" with
    | none => .ok (scaleFunc data 2)
    | some (some n) => .ok (scaleFunc data n)
    | some none => .error .typeError
  else .error .typeError

/-- The full pipeline `lookup(name)(**overrides)(data)` for the registered
`scale` function: `lookup` returns the synthesized class, so the overrides
are the constructor keyword arguments fed to `Transform.__init__`; the call
with the data positional argument and no call-time keywords then builds its
keyword set per `Transform.__call__` and invokes the wrapped function. -/
def lookupScaleCall (overrides : List (String × Option Int)) (data : List Int) :
    Except PyErr (List Int) :=
  match transformInit (some scaleVarList) overrides with
  | .error e => .error e
  | .ok attrs =>
    match buildCallKeywords scaleVarList attrs classFuncArgspecArgs [] with
    | .error e => .error e
    | .ok keywords => callScaleFunc data keywords

/-- The behaviour the spec claims for the pipeline, stated from the words of
the spec: the function called directly with its bound defaults overridden by
the overrides (`none` when the override binds the factor to Python `None`,
which no integer multiplication accepts). -/
def specScaleCall (overrides : List (String × Option Int)) (data : List Int) :
    Option (List Int) :=
  match alookup overrides "factor" with
  | some (some f) => some (scaleFunc data f)
  | some none => none
  | none => some (scaleFunc data 2)

/-- A heap of table objects for the claims about object identity: references
are naturals, `next` is the next fresh reference. -/
structure Store where
  heap : List (Nat × Table)
  next : Nat

/-- Reading the table object a reference points to. -/
def Store.get (s : Store) (r : Nat) : Option Table :=
  alookup s.heap r

/-- Well-formedness of a heap: every allocated reference is below `next`. -/
def Store.WF (s : Store) : Prop :=
  ∀ p ∈ s.heap, p.1 < s.next

/-- Allocation of a fresh table object holding value `t`. -/
def Store.alloc (s : Store) (t : Table) : Store × Nat :=
  ({ heap := s.heap ++ [(s.next, t)], next := s.next + 1 }, s.next)

/-- Overwriting the table object at reference `r`. -/
def Store.put (s : Store) (r : Nat) (t : Table) : Store :=
  { s with heap := pyDictSet s.heap r t }

/-- The loop of `TransformChain.apply` at the heap level: each uid is looked
up in the `_transforms` dict (a `KeyError` when absent) and the working
object at reference `wr` is rewritten with the transform output, modelling
even a transform that updates its argument object in place. -/
def applyRefLoop (tfs : List (Nat × Tf)) (kwargs : Kwargs) :
    List Nat → Store → Nat → Except PyErr Unit × Store
  | [], s, _ => (.ok (), s)
  | uid :: rest, s, wr =>
    match alookup tfs uid with
    | none => (.error .keyError, s)
    | some f =>
      match s.get wr with
      | none => (.error .keyError, s)
      | some cur => applyRefLoop tfs kwargs rest (s.put wr (f cur kwargs)) wr

/-- The embedding of `TransformChain.apply` (lines 171-179) at the heap
level: `df_cp = deepcopy(df)` allocates a fresh object holding a copy of the
value of the argument object, and the loop threads that copy through the
transforms; the reference of the final working object is returned. -/
def TransformChain.applyRef (c : TransformChain) (s : Store) (r : Nat) (kwargs : Kwargs) :
    Except PyErr Nat × Store :=
  match s.get r with
  | none => (.error .keyError, s)
  | some v =>
    let a := s.alloc v
    match applyRefLoop c.transforms kwargs c.ordering a.1 a.2 with
    | (.ok _, s1) => (.ok a.2, s1)
    | (.error e, s1) => (.error e, s1)

/-- The embedding of class `DataWrapper` (transform.py lines 186-231): the
original table `df`, the `modified` cache from chain uid to last-computed
result, the dict of registered chains, and the optional default chain.
Python stores the chain object itself in `_defaultchain`; the chains here
are immutable values, so storing the chain value is faithful. -/
structure DataWrapper where
  df : Table
  modified : List (Nat × Table)
  transform_chains : List (Nat × TransformChain)
  defaultchain : Option TransformChain

/-- The embedding of `DataWrapper.__init__` (lines 192-196). -/
def mkDataWrapper (frame : Table) : DataWrapper :=
  { df := frame, modified := [], transform_chains := [], defaultchain := none }

/-- The argument passed to `DataWrapper.applychain`: a `TransformChain`
instance, or any other Python value. -/
inductive ApplyArg
  | chain (tc : TransformChain)
  | other

/-- Named replacement fields of a `str.format` template against the provided
keyword arguments: `str.format` raises `KeyError` when a named field has no
matching keyword argument (positional arguments match only positional or
numbered fields), and otherwise produces the substituted text (the text
itself is irrelevant to the claims and is returned unsubstituted). -/
def pyFormat (namedFields : List String) (formatKwargs : List (String × String))
    (text : String) : Except PyErr String :=
  if namedFields.all (fun f => (alookup formatKwargs f).isSome) then .ok text
  else .error .keyError

/-- The message expression of the `raise TypeError` in `DataWrapper.applychain`
(lines 213-214): the template names the replacement field `typ`, but
`.format(type(tc))` passes only a positional argument, so evaluating the
message raises `KeyError` before any `TypeError` is constructed. -/
def applychainMsg : Except PyErr String :=
  pyFormat ["typ"] []
    "expected an instance or subclass of TransformChain, but got (\x7btyp\x7d)"

/-- The embedding of `DataWrapper.applychain` (lines 211-221): a non-chain
argument takes the `raise TypeError(message)` path, whose message expression
is evaluated first; a chain argument is registered when new (becoming the
default chain when none exists), then the registered chain is applied to the
original table and the result stored in the `modified` cache and returned. -/
def DataWrapper.applychain (w : DataWrapper) (a : ApplyArg) :
    Except PyErr Table × DataWrapper :=
  match a with
  | .other =>
    match applychainMsg with
    | .error e => (.error e, w)
    | .ok _ => (.error .typeError, w)
  | .chain tc =>
    let w1 :=
      if (alookup w.transform_chains tc.uid).isSome then w
      else
        { w with
          transform_chains := pyDictSet w.transform_chains tc.uid tc,
          defaultchain :=
            match w.defaultchain with
            | none => some tc
            | some d => some d }
    match alookup w1.transform_chains tc.uid with
    | none => (.error .keyError, w1)
    | some stored =>
      match stored.apply w1.df [] with
      | .error e => (.error e, w1)
      | .ok t => (.ok t, { w1 with modified := pyDictSet w1.modified tc.uid t })

/-- The embedding of `DataWrapper.removechain` (lines 207-209): delete the
chain registration, then its cached result, each deletion raising `KeyError`
on an absent key; the `_defaultchain` attribute is not touched. -/
def DataWrapper.removechain (w : DataWrapper) (uid : Nat) :
    Except PyErr Unit × DataWrapper :=
  if (alookup w.transform_chains uid).isSome then
    let w1 : DataWrapper := { w with transform_chains := eraseKeyA w.transform_chains uid }
    if (alookup w1.modified uid).isSome then
      (.ok (), { w1 with modified := eraseKeyA w1.modified uid })
    else
      (.error .keyError, w1)
  else
    (.error .keyError, w)

/-- The embedding of the `DataWrapper.data` property (lines 223-231): with a
default chain and no forced recomputation, read the cached entry of the
default chain from `modified` (a `KeyError` when absent); with forced
recomputation, re-apply the default chain; with no default chain, return the
original table. Being a property, attribute access always reaches this with
`reapply` false. -/
def DataWrapper.dataGet (w : DataWrapper) (reapply : Bool) :
    Except PyErr Table × DataWrapper :=
  match w.defaultchain with
  | some dc =>
    if reapply then
      w.applychain (.chain dc)
    else
      match alookup w.modified dc.uid with
      | some t => (.ok t, w)
      | none => (.error .keyError, w)
  | none => (.ok w.df, w)

/-- The input table of the spec scenario: one column `x` with samples 1,2,3. -/
def scenarioDf : Table := [("x", [1, 2, 3])]

/-- The scenario transform `scale(factor=2)`: every cell multiplied by 2. -/
def scale2 : Tf := fun t _ => t.map (fun c => (c.1, c.2.map (fun n => n * 2)))

/-- The scenario transform `offset(delta=5)`: every cell shifted by 5. -/
def offset5 : Tf := fun t _ => t.map (fun c => (c.1, c.2.map (fun n => n + 5)))

/-- A chain built through `TransformChain.__init__` and two `addtransform`
calls from the uid supply starting at 0: the chain gets uid 0 and the two
registered callables get uids 1 and 2, in that order. -/
def twoChain (f1 f2 : Tf) : TransformChain :=
  let s0 := mkChain 0
  let s1 := s0.1.addtransform (.callable f1) s0.2
  let s2 := s1.2.1.addtransform (.callable f2) s1.2.2
  s2.2.1

/-- The scenario chain C holding `[scale(factor=2), offset(delta=5)]` in that
order. -/
def chainC : TransformChain :=
  twoChain scale2 offset5

/-- The wrapper state and result after `wrapper.applychain(C)` on a fresh
wrapper over the scenario table. -/
def scenarioStep1 : Except PyErr Table × DataWrapper :=
  (mkDataWrapper scenarioDf).applychain (.chain chainC)

/-- The result of reading `wrapper.data` (no forced recomputation) after the
scenario `applychain`. -/
def scenarioStep2 : Except PyErr Table × DataWrapper :=
  scenarioStep1.2.dataGet false

/-- The wrapper state after `wrapper.removechain(C.uid)`. -/
def scenarioStep3 : Except PyErr Unit × DataWrapper :=
  scenarioStep1.2.removechain chainC.uid

/-- The result of reading `wrapper.data` after the scenario `removechain`. -/
def scenarioStep4 : Except PyErr Table × DataWrapper :=
  scenarioStep3.2.dataGet false

/-- Reachability of a chain state: the state of `TransformChain.__init__`
followed by any sequence of `addtransform` calls and successful
`removetransform` and `reorder` calls, with the uid counter threaded through
the constructor and `addtransform`. -/
inductive ChainReach : TransformChain → Nat → Prop
  | init (g : Nat) : ChainReach (mkChain g).1 (mkChain g).2
  | add {c : TransformChain} {g : Nat} (t : AddArg) (h : ChainReach c g) :
      ChainReach (c.addtransform t g).2.1 (c.addtransform t g).2.2
  | remove {c : TransformChain} {g : Nat} (uid : Nat) (h : ChainReach c g)
      (hok : (c.removetransform uid).1 = .ok ()) :
      ChainReach (c.removetransform uid).2 g
  | reorderStep {c : TransformChain} {g : Nat} (m : List (Nat × Nat)) (h : ChainReach c g)
      (hok : exceptOk (c.reorder m).1 = true) :
      ChainReach (c.reorder m).2 g

/-- The invariant carried by reachable chain states: the ordering is a
permutation of the keys of the `_transforms` dict, and every key is below
the uid counter. -/
def ChainInv (c : TransformChain) (g : Nat) : Prop :=
  c.ordering.Perm (c.transforms.map Prod.fst) ∧ ∀ k ∈ c.transforms.map Prod.fst, k < g

/-- A concrete three-transform chain used as the reorder witness input. -/
def c4Chain : TransformChain :=
  ⟨0, [(1, idTf), (2, idTf), (3, idTf)], [1, 2, 3]⟩

/-- A concrete one-object heap used as witness input for the heap-level
statements: reference 0 holds the scenario table. -/
def oneStore : Store :=
  { heap := [(0, scenarioDf)], next := 1 }

instance {ε α : Type} [DecidableEq ε] [DecidableEq α] : DecidableEq (Except ε α) :=
  fun a b =>
    match a, b with
    | .error x, .error y =>
      if h : x = y then .isTrue (congrArg Except.error h)
      else .isFalse (fun hc => h (Except.error.inj hc))
    | .ok x, .ok y =>
      if h : x = y then .isTrue (congrArg Except.ok h)
      else .isFalse (fun hc => h (Except.ok.inj hc))
    | .error _, .ok _ => .isFalse (fun hc => Except.noConfusion hc)
    | .ok _, .error _ => .isFalse (fun hc => Except.noConfusion hc)

instance : DecidableEq PyAttrs := by
  unfold PyAttrs
  infer_instance

theorem alookup_isSome_iff {κ α : Type} [DecidableEq κ] {l : List (κ × α)} {k : κ} :
    (alookup l k).isSome ↔ k ∈ l.map Prod.fst := by
  induction l with
  | nil => simp [alookup]
  | cons p rest ih =>
    by_cases h : p.1 = k
    · simp [alookup, h]
    · simp only [alookup, h, if_false, List.map_cons, List.mem_cons, ih]
      constructor
      · exact Or.inr
      · rintro (hk | hk)
        · exact absurd hk.symm h
        · exact hk

theorem alookup_eq_none_of_forall_lt {α : Type} {l : List (Nat × α)} {k : Nat}
    (h : ∀ p ∈ l, p.1 < k) : alookup l k = none := by
  cases hs : alookup l k with
  | none => rfl
  | some v =>
    have hk : k ∈ l.map Prod.fst := alookup_isSome_iff.mp (by simp [hs])
    rcases List.mem_map.mp hk with ⟨p, hp, hpk⟩
    have := h p hp
    omega

theorem alookup_append {κ α : Type} [DecidableEq κ] (l₁ l₂ : List (κ × α)) (k : κ) :
    alookup (l₁ ++ l₂) k =
      match alookup l₁ k with
      | some v => some v
      | none => alookup l₂ k := by
  induction l₁ with
  | nil => simp [alookup]
  | cons p rest ih =>
    by_cases h : p.1 = k <;> simp [alookup, h, ih]

theorem alookup_pyDictSet_self {κ α : Type} [DecidableEq κ] (l : List (κ × α)) (k : κ) (v : α) :
    alookup (pyDictSet l k v) k = some v := by
  induction l with
  | nil => simp [pyDictSet, alookup]
  | cons p rest ih =>
    by_cases h : p.1 = k <;> simp [pyDictSet, alookup, h, ih]

theorem alookup_pyDictSet_ne {κ α : Type} [DecidableEq κ] (l : List (κ × α)) {k k' : κ}
    (v : α) (h : k' ≠ k) : alookup (pyDictSet l k v) k' = alookup l k' := by
  induction l with
  | nil => simp [pyDictSet, alookup, Ne.symm h]
  | cons p rest ih =>
    by_cases hp : p.1 = k
    · simp [pyDictSet, alookup, hp, Ne.symm h]
    · simp [pyDictSet, alookup, hp, ih]

theorem pyDictSet_eq_append_of_not_mem {κ α : Type} [DecidableEq κ] {l : List (κ × α)} {k : κ}
    (v : α) (h : k ∉ l.map Prod.fst) : pyDictSet l k v = l ++ [(k, v)] := by
  induction l with
  | nil => rfl
  | cons p rest ih =>
    simp only [List.map_cons, List.mem_cons] at h
    push_neg at h
    simp [pyDictSet, Ne.symm h.1, ih h.2]

theorem map_fst_eraseKeyA {κ α : Type} [DecidableEq κ] (l : List (κ × α)) (k : κ) :
    (eraseKeyA l k).map Prod.fst = (l.map Prod.fst).erase k := by
  induction l with
  | nil => rfl
  | cons p rest ih =>
    by_cases h : p.1 = k
    · simp [eraseKeyA, h, List.erase_cons]
    · simp [eraseKeyA, h, List.erase_cons, ih]

theorem pyInsert_perm {α : Type} (i : Nat) (x : α) (l : List α) :
    (pyInsert i x l).Perm (x :: l) := by
  induction l generalizing i with
  | nil => simp [pyInsert]
  | cons y ys ih =>
    cases i with
    | zero => simp [pyInsert]
    | succ j =>
      exact ((ih j).cons y).trans (List.Perm.swap x y ys)

theorem insertByPos_perm (d : List (Nat × Nat)) (k : Nat) (l : List Nat) :
    (insertByPos d k l).Perm (k :: l) := by
  induction l with
  | nil => simp [insertByPos]
  | cons y ys ih =>
    by_cases h : (alookup d k).getD 0 ≤ (alookup d y).getD 0
    · simp [insertByPos, h]
    · simp only [insertByPos, h, if_false]
      exact (ih.cons y).trans (List.Perm.swap k y ys)

theorem sortedByPos_perm (d : List (Nat × Nat)) (ks : List Nat) :
    (sortedByPos d ks).Perm ks := by
  induction ks with
  | nil => simp [sortedByPos]
  | cons k rest ih =>
    exact (insertByPos_perm d k (sortedByPos d rest)).trans (ih.cons k)

theorem dedup_dict_sublist_aux (m : List (Nat × Nat)) :
    ∀ (acc : List (Nat × Nat)) (p : Nat × Nat),
      p ∈ m.foldl (fun acc q => if acc.any (fun e => e.2 = q.2) then acc else acc ++ [q]) acc →
      p ∈ acc ∨ p ∈ m := by
  induction m with
  | nil => intro acc p hp; exact Or.inl hp
  | cons q rest ih =>
    intro acc p hp
    simp only [List.foldl_cons] at hp
    rcases ih _ p hp with h | h
    · by_cases ha : acc.any (fun e => e.2 = q.2)
      · rw [if_pos ha] at h
        exact Or.inl h
      · rw [if_neg ha] at h
        rcases List.mem_append.mp h with h | h
        · exact Or.inl h
        · exact Or.inr (by simp [List.mem_singleton.mp h])
    · exact Or.inr (List.mem_cons_of_mem q h)

theorem mem_of_mem_dedup_dict {m : List (Nat × Nat)} {p : Nat × Nat}
    (h : p ∈ dedup_dict m) : p ∈ m := by
  rcases dedup_dict_sublist_aux m [] p h with hc | hc
  · cases hc
  · exact hc

theorem reorderLoop_ok_perm (d : List (Nat × Nat)) :
    ∀ (order lst : List Nat),
      (∀ u ∈ order, u ∈ lst ∧ (alookup d u).isSome) →
      (reorderLoop d order lst).1 = .ok () ∧ (reorderLoop d order lst).2.Perm lst := by
  intro order
  induction order with
  | nil => intro lst _; exact ⟨rfl, List.Perm.refl lst⟩
  | cons uid rest ih =>
    intro lst h
    have hu := h uid (List.mem_cons_self uid rest)
    rcases hu with ⟨humem, husome⟩
    rcases Option.isSome_iff_exists.mp husome with ⟨pos, hpos⟩
    have hstep : (pyInsert pos uid (lst.erase uid)).Perm lst :=
      (pyInsert_perm pos uid (lst.erase uid)).trans (List.perm_cons_erase humem).symm
    have hrest : ∀ u ∈ rest, u ∈ pyInsert pos uid (lst.erase uid) ∧ (alookup d u).isSome := by
      intro u hu
      rcases h u (List.mem_cons_of_mem uid hu) with ⟨h1, h2⟩
      exact ⟨hstep.symm.subset h1, h2⟩
    rcases ih (pyInsert pos uid (lst.erase uid)) hrest with ⟨hok, hperm⟩
    refine ⟨?_, ?_⟩
    · simp [reorderLoop, humem, hpos, hok]
    · simpa [reorderLoop, humem, hpos] using hperm.trans hstep

theorem reorderLoop_perm_of_ok (d : List (Nat × Nat)) :
    ∀ (order lst : List Nat),
      (reorderLoop d order lst).1 = .ok () → (reorderLoop d order lst).2.Perm lst := by
  intro order
  induction order with
  | nil => intro lst _; exact List.Perm.refl lst
  | cons uid rest ih =>
    intro lst hok
    by_cases humem : uid ∈ lst
    · cases hpos : alookup d uid with
      | none => simp [reorderLoop, humem, hpos] at hok
      | some pos =>
        have hstep : (pyInsert pos uid (lst.erase uid)).Perm lst :=
          (pyInsert_perm pos uid (lst.erase uid)).trans (List.perm_cons_erase humem).symm
        have hok2 : (reorderLoop d rest (pyInsert pos uid (lst.erase uid))).1 = .ok () := by
          simpa [reorderLoop, humem, hpos] using hok
        have := ih (pyInsert pos uid (lst.erase uid)) hok2
        simpa [reorderLoop, humem, hpos] using this.trans hstep
    · simp [reorderLoop, humem] at hok

theorem applyRefLoop_get_ne (tfs : List (Nat × Tf)) (kwargs : Kwargs) :
    ∀ (uids : List Nat) (s : Store) (wr r : Nat), r ≠ wr →
      ((applyRefLoop tfs kwargs uids s wr).2).get r = s.get r := by
  intro uids
  induction uids with
  | nil => intro s wr r _; rfl
  | cons uid rest ih =>
    intro s wr r hr
    cases hf : alookup tfs uid with
    | none => simp [applyRefLoop, hf]
    | some f =>
      cases hc : s.get wr with
      | none => simp [applyRefLoop, hf, hc]
      | some cur =>
        have hput : (s.put wr (f cur kwargs)).get r = s.get r :=
          alookup_pyDictSet_ne s.heap (f cur kwargs) hr
        simp only [applyRefLoop, hf, hc]
        exact (ih (s.put wr (f cur kwargs)) wr r hr).trans hput

theorem store_get_lt_next {s : Store} {r : Nat} (hwf : s.WF) (h : (s.get r).isSome) :
    r < s.next := by
  have hk : r ∈ s.heap.map Prod.fst := alookup_isSome_iff.mp h
  rcases List.mem_map.mp hk with ⟨p, hp, hpk⟩
  have := hwf p hp
  omega

theorem oneStore_wf : oneStore.WF := by
  intro p hp
  simp only [oneStore, List.mem_singleton] at hp
  subst hp
  decide

/-- C1 (counterexample): in the spec scenario over table x=[1,2,3] with chain
C of scale(factor=2) then offset(delta=5), the first two legs hold, but after
`removechain(C.uid)` the read of `wrapper.data` does not return the original
table: `_defaultchain` still references the removed chain, and the cache
lookup fails, so the claim as stated is false. -/
theorem c1_scenario_counterexample :
    scenarioStep1.1 = .ok [("x", [7, 9, 11])] ∧
    scenarioStep2.1 = .ok [("x", [7, 9, 11])] ∧
    scenarioStep4.1 ≠ .ok scenarioDf := by
  refine ⟨rfl, rfl, ?_⟩
  decide

/-- C1 (amended): `wrapper.applychain(C)` returns x=[7,9,11]; reading
`wrapper.data` without forcing recomputation returns the same cached
x=[7,9,11]; `wrapper.removechain(C.uid)` succeeds, but a subsequent read of
`wrapper.data` raises a key-lookup error, because the default-chain
reference dangles and its cache entry is gone. -/
theorem c1_scenario_amended :
    scenarioStep1.1 = .ok [("x", [7, 9, 11])] ∧
    scenarioStep2.1 = .ok [("x", [7, 9, 11])] ∧
    scenarioStep3.1 = .ok () ∧
    scenarioStep4.1 = .error .keyError :=
  ⟨rfl, rfl, rfl, rfl⟩

/-- C2 (code bug): for the function `scale(data, *, factor=2)` registered via
the function-decorator path, `lookup("scale")(factor=3)(data)` does not apply
the override: `Transform.__call__` filters bound variables through the argspec
of `class_func(self, *args, **kwargs)`, whose named arguments are only
`self`, so no bound value ever reaches the wrapped function and the result
falls back to the declared default factor 2, while the spec demands the
overridden factor 3. -/
theorem c2_lookup_override_lost :
    lookupScaleCall [("factor", some 3)] [1, 2] = .ok [2, 4] ∧
    specScaleCall [("factor", some 3)] [1, 2] = some [3, 6] ∧
    lookupScaleCall [("factor", some 3)] [1, 2] ≠ .ok [3, 6] := by
  refine ⟨rfl, rfl, ?_⟩
  decide

/-- C3 (code bug): constructing a transform whose `var_list` declares the
bare variable a with the keyword argument a=5 leaves attribute a at None:
the kwargs loop of `Transform.__init__` guards each override with
`getattr(self, name, None) is not None` on the stale loop variable `name`
from the defaults loop, which here reads the just-defaulted None, so the
matching keyword never overrides the default as the claim requires. -/
theorem c3_ctor_override_lost :
    transformInit (some [PyVar.plain "a"]) [("a", some 5)] = .ok [("a", none)] ∧
    transformInit (some [PyVar.plain "a"]) [("a", some 5)] ≠ .ok [("a", some 5)] := by
  refine ⟨rfl, ?_⟩
  decide

/-- C5 (code bug): `DataWrapper.applychain` on a non-chain argument fails
immediately and leaves the wrapper unchanged, but the exception is a
KeyError, not the TypeError the claim states: evaluating the message of the
`raise TypeError(...)` calls `.format(type(tc))` on a template whose named
field `typ` has no matching keyword argument. -/
theorem c5_applychain_nonchain (w : DataWrapper) :
    w.applychain .other = (.error .keyError, w) :=
  rfl

/-- C6: for a chain holding transforms T1, T2 in order [T1, T2], `apply`
threads the table left-to-right, giving T2(T1(df)); after
`reorder({T2: 0, T1: 1})` the order is swapped and `apply` gives T1(T2(df)).
The chain is built from the uid supply starting at 0, so T1 and T2 carry
uids 1 and 2. -/
theorem c6_apply_order (f1 f2 : Tf) (df : Table) (kw : Kwargs) :
    (twoChain f1 f2).apply df kw = .ok (f2 (f1 df kw) kw) ∧
    ((twoChain f1 f2).reorder [(2, 0), (1, 1)]).2.apply df kw = .ok (f1 (f2 df kw) kw) :=
  ⟨rfl, rfl⟩

/-- C4: `reorder` on a position map whose keys are transform uids of the
chain (as the docstring defines the input) does not crash, duplicate target
positions included: the spec-modelled `dedup_dict` pre-step deterministically
keeps one entry per target position, the survivors are sorted ascending by
target position, and each is removed and reinserted in that order, every
step succeeding. -/
theorem c4_reorder_dup_no_crash (c : TransformChain) (m : List (Nat × Nat))
    (h : ∀ k ∈ m.map Prod.fst, k ∈ c.ordering) :
    exceptOk (c.reorder m).1 = true := by
  have hpre : ∀ u ∈ sortedByPos (dedup_dict m) ((dedup_dict m).map Prod.fst),
      u ∈ c.ordering ∧ (alookup (dedup_dict m) u).isSome := by
    intro u hu
    have hukey : u ∈ (dedup_dict m).map Prod.fst :=
      (sortedByPos_perm (dedup_dict m) ((dedup_dict m).map Prod.fst)).subset hu
    refine ⟨?_, alookup_isSome_iff.mpr hukey⟩
    rcases List.mem_map.mp hukey with ⟨p, hp, hpk⟩
    exact h u (List.mem_map.mpr ⟨p, mem_of_mem_dedup_dict hp, hpk⟩)
  rcases reorderLoop_ok_perm (dedup_dict m)
      (sortedByPos (dedup_dict m) ((dedup_dict m).map Prod.fst)) c.ordering hpre with ⟨hok, _⟩
  unfold TransformChain.reorder
  dsimp only
  split
  · rfl
  · next e lst heq =>
    rw [heq] at hok
    cases hok

/-- Witness for C4: a concrete position map with duplicate target positions
0, 0, 1 over a chain holding three transforms. -/
theorem c4_reorder_dup_no_crash_witness :
    (∀ k ∈ ([(1, 0), (2, 0), (3, 1)] : List (Nat × Nat)).map Prod.fst, k ∈ c4Chain.ordering) ∧
    exceptOk (c4Chain.reorder [(1, 0), (2, 0), (3, 1)]).1 = true :=
  ⟨by decide, c4_reorder_dup_no_crash c4Chain [(1, 0), (2, 0), (3, 1)] (by decide)⟩

/-- C7: at the heap level, `apply` never changes the table object the input
reference points to: the deep copy is a fresh object, every transform reads
and rewrites only the working copy, and the input cell of the heap is the
same afterwards, error paths included. -/
theorem c7_apply_no_input_mutation (c : TransformChain) (s : Store) (r : Nat) (kw : Kwargs)
    (hwf : s.WF) : ((c.applyRef s r kw).2).get r = s.get r := by
  unfold TransformChain.applyRef
  cases hg : s.get r with
  | none => exact hg
  | some v =>
    have hlt : r < s.next := store_get_lt_next hwf (by simp [hg])
    have hne : r ≠ (s.alloc v).2 := Nat.ne_of_lt hlt
    have hg2 : alookup s.heap r = some v := hg
    have halloc : (s.alloc v).1.get r = s.get r := by
      simp [Store.alloc, Store.get, alookup_append, hg2]
    have hloop := applyRefLoop_get_ne c.transforms kw c.ordering (s.alloc v).1 (s.alloc v).2 r hne
    dsimp only
    rcases hsp : applyRefLoop c.transforms kw c.ordering (s.alloc v).1 (s.alloc v).2 with ⟨res, s1⟩
    rw [hsp] at hloop
    cases res <;> exact hloop.trans (halloc.trans hg)

/-- Witness for C7: the scenario chain applied over a one-object heap. -/
theorem c7_apply_no_input_mutation_witness :
    oneStore.WF ∧ ((chainC.applyRef oneStore 0 []).2).get 0 = oneStore.get 0 :=
  ⟨oneStore_wf, c7_apply_no_input_mutation chainC oneStore 0 [] oneStore_wf⟩

/-- C8: a callable argument to `addtransform` gets the freshly generated id
(new to the mapping when the counter bounds every existing key), the mapping
is extended with the binding and the id is appended at the end of the order
sequence, and the pair of id and transform is returned; a non-callable
argument returns `None` and leaves the chain and the counter unchanged. -/
theorem c8_addtransform_spec (c : TransformChain) (f : Tf) (g : Nat)
    (hfresh : ∀ k ∈ c.transforms.map Prod.fst, k < g) :
    c.addtransform (.callable f) g =
      (some (g, f),
       { c with transforms := c.transforms ++ [(g, f)], ordering := c.ordering ++ [g] },
       g + 1) ∧
    g ∉ c.transforms.map Prod.fst ∧
    c.addtransform .notCallable g = (none, c, g) := by
  have hnm : g ∉ c.transforms.map Prod.fst := by
    intro hmem
    exact absurd (hfresh g hmem) (lt_irrefl g)
  refine ⟨?_, hnm, rfl⟩
  show ((alookup (pyDictSet c.transforms g f) g).map (fun tf => (g, tf)),
        { c with transforms := pyDictSet c.transforms g f, ordering := c.ordering ++ [g] },
        g + 1) =
      (some (g, f),
       { c with transforms := c.transforms ++ [(g, f)], ordering := c.ordering ++ [g] },
       g + 1)
  rw [alookup_pyDictSet_self, pyDictSet_eq_append_of_not_mem f hnm]
  rfl

/-- Witness for C8: the empty chain from `TransformChain.__init__` with the
counter at 1 and the identity callable. -/
theorem c8_addtransform_spec_witness :
    (∀ k ∈ (mkChain 0).1.transforms.map Prod.fst, k < 1) ∧
    ((mkChain 0).1.addtransform (.callable idTf) 1 =
      (some (1, idTf),
       { (mkChain 0).1 with
           transforms := (mkChain 0).1.transforms ++ [(1, idTf)],
           ordering := (mkChain 0).1.ordering ++ [1] },
       2) ∧
     1 ∉ (mkChain 0).1.transforms.map Prod.fst ∧
     (mkChain 0).1.addtransform .notCallable 1 = (none, (mkChain 0).1, 1)) :=
  ⟨by simp [mkChain], c8_addtransform_spec (mkChain 0).1 idTf 1 (by simp [mkChain])⟩

theorem chainReach_inv {c : TransformChain} {g : Nat} (h : ChainReach c g) : ChainInv c g := by
  induction h with
  | init g => exact ⟨List.Perm.refl _, by intro k hk; simp [mkChain] at hk⟩
  | @add c g t h ih =>
    rcases ih with ⟨hperm, hbound⟩
    cases t with
    | notCallable => exact ⟨hperm, hbound⟩
    | callable f =>
      have hnm : g ∉ c.transforms.map Prod.fst := by
        intro hmem
        exact absurd (hbound g hmem) (lt_irrefl g)
      refine ⟨?_, ?_⟩
      · show (c.ordering ++ [g]).Perm ((pyDictSet c.transforms g f).map Prod.fst)
        rw [pyDictSet_eq_append_of_not_mem f hnm, List.map_append]
        exact hperm.append (List.Perm.refl _)
      · show ∀ k ∈ (pyDictSet c.transforms g f).map Prod.fst, k < g + 1
        rw [pyDictSet_eq_append_of_not_mem f hnm, List.map_append]
        intro k hk
        rcases List.mem_append.mp hk with hk | hk
        · exact Nat.lt_succ_of_lt (hbound k hk)
        · simp only [List.map_cons, List.map_nil, List.mem_singleton] at hk
          omega
  | @remove c g uid h hok ih =>
    rcases ih with ⟨hperm, hbound⟩
    by_cases h1 : (alookup c.transforms uid).isSome
    · by_cases h2 : uid ∈ c.ordering
      · have hres : (c.removetransform uid).2 =
            { c with transforms := eraseKeyA c.transforms uid,
                     ordering := c.ordering.erase uid } := by
          simp [TransformChain.removetransform, h1, h2]
        rw [hres]
        refine ⟨?_, ?_⟩
        · show (c.ordering.erase uid).Perm ((eraseKeyA c.transforms uid).map Prod.fst)
          rw [map_fst_eraseKeyA]
          exact hperm.erase uid
        · show ∀ k ∈ (eraseKeyA c.transforms uid).map Prod.fst, k < g
          rw [map_fst_eraseKeyA]
          intro k hk
          exact hbound k (List.mem_of_mem_erase hk)
      · exact absurd hok (by simp [TransformChain.removetransform, h1, h2])
    · exact absurd hok (by simp [TransformChain.removetransform, h1])
  | @reorderStep c g m h hok ih =>
    rcases ih with ⟨hperm, hbound⟩
    rcases hr : reorderLoop (dedup_dict m)
        (sortedByPos (dedup_dict m) ((dedup_dict m).map Prod.fst)) c.ordering with ⟨res, lst⟩
    cases res with
    | error e =>
      exact absurd hok (by simp [TransformChain.reorder, hr, exceptOk])
    | ok u =>
      have hres2 : (c.reorder m).2 = { c with ordering := lst } := by
        simp [TransformChain.reorder, hr]
      have hlok : (reorderLoop (dedup_dict m)
          (sortedByPos (dedup_dict m) ((dedup_dict m).map Prod.fst)) c.ordering).1 = .ok () := by
        rw [hr]
      have hperm2 := reorderLoop_perm_of_ok (dedup_dict m)
        (sortedByPos (dedup_dict m) ((dedup_dict m).map Prod.fst)) c.ordering hlok
      rw [hr] at hperm2
      rw [hres2]
      exact ⟨hperm2.trans hperm, hbound⟩

/-- C9: along every sequence of chain operations that succeed (construction,
`addtransform`, `removetransform`, `reorder`), the ordered id sequence stays
a permutation of the keys of the id-to-transform mapping, and the length of
the chain per `__len__` equals the length of the order sequence. -/
theorem c9_ordering_perm_len (c : TransformChain) (g : Nat) (h : ChainReach c g) :
    c.ordering.Perm (c.transforms.map Prod.fst) ∧ chainLen c = c.ordering.length := by
  rcases chainReach_inv h with ⟨hperm, _⟩
  refine ⟨hperm, ?_⟩
  show c.transforms.length = c.ordering.length
  exact (List.length_map c.transforms Prod.fst).symm.trans hperm.length_eq.symm

/-- Witness for C9: the state reached from `TransformChain.__init__` at
counter 0 followed by one `addtransform` of a callable. -/
theorem c9_ordering_perm_len_witness :
    ChainReach (⟨0, [(1, idTf)], [1]⟩ : TransformChain) 2 ∧
    ((([1] : List Nat)).Perm ((⟨0, [(1, idTf)], [1]⟩ : TransformChain).transforms.map Prod.fst) ∧
     chainLen ⟨0, [(1, idTf)], [1]⟩ = ([1] : List Nat).length) :=
  ⟨ChainReach.add (.callable idTf) (ChainReach.init 0),
   c9_ordering_perm_len ⟨0, [(1, idTf)], [1]⟩ 2
     (ChainReach.add (.callable idTf) (ChainReach.init 0))⟩

/-- C10: applying a chain that holds no transforms returns a fresh object,
distinct from the input reference, whose content equals the content of the
input table. -/
theorem c10_empty_chain_copy (g : Nat) (s : Store) (r : Nat) (v : Table) (kw : Kwargs)
    (hwf : s.WF) (hg : s.get r = some v) :
    ((mkChain g).1.applyRef s r kw).1 = .ok s.next ∧
    s.next ≠ r ∧
    (((mkChain g).1.applyRef s r kw).2).get s.next = some v := by
  have hlt : r < s.next := store_get_lt_next hwf (by simp [hg])
  have hnone : alookup s.heap s.next = none := alookup_eq_none_of_forall_lt hwf
  refine ⟨?_, by omega, ?_⟩
  · unfold TransformChain.applyRef
    rw [hg]
    rfl
  · unfold TransformChain.applyRef
    rw [hg]
    show (s.alloc v).1.get s.next = some v
    simp [Store.alloc, Store.get, alookup, alookup_append, hnone]

/-- Witness for C10: the empty chain from counter 5 over a one-object heap. -/
theorem c10_empty_chain_copy_witness :
    (oneStore.WF ∧ oneStore.get 0 = some scenarioDf) ∧
    (((mkChain 5).1.applyRef oneStore 0 []).1 = .ok oneStore.next ∧
     oneStore.next ≠ 0 ∧
     (((mkChain 5).1.applyRef oneStore 0 []).2).get oneStore.next = some scenarioDf) :=
  ⟨⟨oneStore_wf, rfl⟩, c10_empty_chain_copy 5 oneStore 0 scenarioDf [] oneStore_wf rfl⟩
